import Mathlib

/-!
Verification of the conndebug network-diagnostic CLI (Go).

Go strings are modelled as lists of characters.  The definitions below are
shallow embeddings of the repository's functions and of the Go standard
library functions they call (strings.SplitN, strings.TrimSpace,
net/textproto.CanonicalMIMEHeaderKey, net.SplitHostPort, net/url scheme
extraction).  External effects (file reads, certificate parsing, the network
round trip, output formatting of library values) are passed in as
environment records, so every definition stays executable.
-/

set_option autoImplicit false

abbrev GoString := List Char

/-- Go unicode.IsSpace restricted to the code points in Go's White_Space
tables: '\t', '\n', '\v', '\f', '\r', ' ', U+0085, U+00A0, U+1680,
U+2000..U+200A, U+2028, U+2029, U+202F, U+205F, U+3000. -/
def goIsSpace (c : Char) : Bool :=
  decide (c = ' ' ∨ c = '\t' ∨ c = '\n' ∨ c = '\r' ∨ c.toNat = 11 ∨ c.toNat = 12 ∨
    c.toNat = 133 ∨ c.toNat = 160 ∨ c.toNat = 5760 ∨ (8192 ≤ c.toNat ∧ c.toNat ≤ 8202) ∨
    c.toNat = 8232 ∨ c.toNat = 8233 ∨ c.toNat = 8239 ∨ c.toNat = 8287 ∨ c.toNat = 12288)

/-- Go strings.TrimSpace: drop leading and trailing white space. -/
def goTrimSpace (s : GoString) : GoString :=
  ((s.dropWhile goIsSpace).reverse.dropWhile goIsSpace).reverse

/-- Split at the first occurrence of the separator; none if absent. -/
def splitOnce (sep : Char) : GoString → Option (GoString × GoString)
  | [] => none
  | c :: rest =>
    if c = sep then some ([], rest)
    else
      match splitOnce sep rest with
      | some (a, b) => some (c :: a, b)
      | none => none

/-- Go strings.SplitN(s, sep, 2) for a one-character separator: either
[before, after] around the first separator, or [s] when it is absent. -/
def goSplitN2 (sep : Char) (s : GoString) : List GoString :=
  match splitOnce sep s with
  | some (a, b) => [a, b]
  | none => [s]

def indexOfChar (c : Char) : GoString → Option Nat
  | [] => none
  | x :: xs => if x = c then some 0 else (indexOfChar c xs).map (· + 1)

def lastIndexOfChar (c : Char) : GoString → Option Nat
  | [] => none
  | x :: xs =>
    match lastIndexOfChar c xs with
    | some i => some (i + 1)
    | none => if x = c then some 0 else none

def containsChar (c : Char) : GoString → Bool
  | [] => false
  | x :: xs => x == c || containsChar c xs

/-- Go net/textproto isTokenTable: the HTTP token characters. -/
def isTokenChar (c : Char) : Bool :=
  decide (('a' ≤ c ∧ c ≤ 'z') ∨ ('A' ≤ c ∧ c ≤ 'Z') ∨ ('0' ≤ c ∧ c ≤ '9') ∨
    c ∈ ['!', '#', '$', '%', '&', Char.ofNat 39, '*', '+', '-', '.', '^', '_',
         Char.ofNat 96, '|', '~'])

def canonCaseChar (upper : Bool) (c : Char) : Char :=
  if upper then (if 'a' ≤ c ∧ c ≤ 'z' then Char.ofNat (c.toNat - 32) else c)
  else (if 'A' ≤ c ∧ c ≤ 'Z' then Char.ofNat (c.toNat + 32) else c)

/-- The case-normalisation loop of Go net/textproto canonicalMIMEHeaderKey:
upper-case the first letter and every letter following a hyphen, lower-case
the rest. -/
def canonCase : Bool → GoString → GoString
  | _, [] => []
  | upper, c :: rest =>
    let c2 := canonCaseChar upper c
    c2 :: canonCase (c2 == '-') rest

/-- Go net/textproto.CanonicalMIMEHeaderKey: canonicalise the case when the
key consists solely of token characters, otherwise return it unchanged. -/
def canonicalMIMEHeaderKey (s : GoString) : GoString :=
  if s.all isTokenChar then canonCase true s else s

/-- Go net/http.Header (a map from canonical keys to value slices), modelled
as an association list; map iteration order is irrelevant to the claims. -/
structure Header where
  entries : List (GoString × List GoString)
deriving DecidableEq

def addEntry : List (GoString × List GoString) → GoString → GoString →
    List (GoString × List GoString)
  | [], k, v => [(k, [v])]
  | (k2, vs) :: rest, k, v =>
    if k2 = k then (k2, vs ++ [v]) :: rest else (k2, vs) :: addEntry rest k v

def setEntry : List (GoString × List GoString) → GoString → GoString →
    List (GoString × List GoString)
  | [], k, v => [(k, [v])]
  | (k2, vs) :: rest, k, v =>
    if k2 = k then (k2, [v]) :: rest else (k2, vs) :: setEntry rest k v

def lookupVals : List (GoString × List GoString) → GoString → Option (List GoString)
  | [], _ => none
  | (k2, vs) :: rest, k => if k2 = k then some vs else lookupVals rest k

/-- Go http.Header.Add: canonicalise the key and append the value. -/
def Header.add (h : Header) (key value : GoString) : Header :=
  ⟨addEntry h.entries (canonicalMIMEHeaderKey key) value⟩

/-- Go http.Header.Set: canonicalise the key and replace the value slice. -/
def Header.set (h : Header) (key value : GoString) : Header :=
  ⟨setEntry h.entries (canonicalMIMEHeaderKey key) value⟩

/-- Go http.Header.Get: first value for the canonicalised key, "" if none. -/
def Header.get (h : Header) (key : GoString) : GoString :=
  match lookupVals h.entries (canonicalMIMEHeaderKey key) with
  | some (v :: _) => v
  | some [] => []
  | none => []

/-- Errors produced by the command paths under verification.  fmt.Errorf
wrapping with a context phrase becomes the wrap constructor; errors coming
back from library calls held in the environment become external; the two
errors the repository formats from an offending input keep that input. -/
inductive GoErr where
  | external (msg : GoString)
  | noRootCerts (path : GoString)
  | malformedHeader (header : GoString)
  | wrap (context : GoString) (inner : GoErr)
deriving DecidableEq

/-- The flag/argument state of the http command (internal/cmd/http.go in its
full variant), after CLI parsing. -/
structure HttpCmd where
  urlStr : GoString := []
  method : GoString := ('G' :: 'E' :: 'T' :: [])
  headers : List GoString := []
  cookies : List GoString := []
  timeout : Nat := 0
  dataRaw : GoString := []
  dataFile : GoString := []
  insecure : Bool := false
  serverName : GoString := []
  rootCertificate : GoString := []
  clientCertificate : GoString := []
  clientKey : GoString := []
deriving DecidableEq

/-- Go (*httpCommand).hasBody. -/
def hasBody (cmd : HttpCmd) : Bool :=
  !cmd.dataRaw.isEmpty || !cmd.dataFile.isEmpty

/-- One iteration of the loop in (*httpCommand).parseHeaders: SplitN on ":"
with limit 2; fewer than two parts is the malformed-header error naming the
raw string, otherwise Add the untrimmed name and the trimmed value. -/
def addHeader (h : Header) (s : GoString) : Except GoErr Header :=
  match goSplitN2 ':' s with
  | [name, value] => .ok (h.add name (goTrimSpace value))
  | _ => .error (.malformedHeader s)

def parseHeadersLoop (h : Header) : List GoString → Except GoErr Header
  | [] => .ok h
  | s :: rest =>
    match addHeader h s with
    | .error e => .error e
    | .ok h2 => parseHeadersLoop h2 rest

def contentTypeHeader : GoString := ("Content-Type").data

def defaultContentType : GoString := ("text/plain").data

/-- Go (*httpCommand).parseHeaders: assemble the raw header strings, then
inject the default content type when the request will carry a body and
Get("Content-Type") is empty. -/
def parseHeaders (cmd : HttpCmd) : Except GoErr Header :=
  match parseHeadersLoop ⟨[]⟩ cmd.headers with
  | .error e => .error e
  | .ok h =>
    if hasBody cmd = true ∧ Header.get h contentTypeHeader = [] then
      .ok (Header.set h contentTypeHeader defaultContentType)
    else .ok h

/-- Outcomes of the external calls made by the http command.  readFile is
os.ReadFile, systemCertPool is x509.SystemCertPool, appendCertsFromPEM is
the success bit of (*x509.CertPool).AppendCertsFromPEM on the file contents,
loadX509KeyPair is tls.LoadX509KeyPair, openFile is os.Open, newRequest is
the validation performed by http.NewRequest. -/
structure ExecEnv where
  readFile : GoString → Except GoString GoString
  systemCertPool : Except GoString Unit
  appendCertsFromPEM : GoString → Bool
  loadX509KeyPair : GoString → GoString → Except GoString Unit
  openFile : GoString → Except GoString Unit
  newRequest : GoString → GoString → Except GoString Unit

/-- The trust store selected by getRootCertPool: the platform default, or a
pool built from the PEM bytes of the supplied file. -/
inductive CertPool where
  | system
  | fromPEM (pem : GoString)
deriving DecidableEq

/-- Go (*httpCommand).getRootCertPool. -/
def getRootCertPool (env : ExecEnv) (rootCertificate : GoString) : Except GoErr CertPool :=
  if rootCertificate = [] then
    match env.systemCertPool with
    | .ok _ => .ok .system
    | .error e => .error (.external e)
  else
    match env.readFile rootCertificate with
    | .error e => .error (.external e)
    | .ok rootPEM =>
      if env.appendCertsFromPEM rootPEM then .ok (.fromPEM rootPEM)
      else .error (.noRootCerts rootCertificate)

/-- Go (*httpCommand).getTLSCertificates: nil unless both the certificate
and the key path are present, otherwise the loaded pair (abstracted to a
unit list of the same length). -/
def getTLSCertificates (env : ExecEnv) (cert key : GoString) : Except GoErr (List Unit) :=
  if cert = [] ∨ key = [] then .ok []
  else
    match env.loadX509KeyPair cert key with
    | .error e => .error (.external e)
    | .ok _ => .ok [()]

structure TLSConf where
  serverName : GoString
  insecureSkipVerify : Bool
  rootCAs : CertPool
  certificates : List Unit
deriving DecidableEq

structure Client where
  timeout : Nat
  tlsConfig : TLSConf
deriving DecidableEq

/-- Go (*httpCommand).buildClient (the cookie jar carries no information the
claims consume and is omitted). -/
def buildClient (env : ExecEnv) (cmd : HttpCmd) : Except GoErr Client :=
  match getRootCertPool env cmd.rootCertificate with
  | .error e => .error (.wrap (("error getting root cert pool").data) e)
  | .ok pool =>
    match getTLSCertificates env cmd.clientCertificate cmd.clientKey with
    | .error e => .error (.wrap (("error loading tls certificates").data) e)
    | .ok certs =>
      .ok ⟨cmd.timeout, ⟨cmd.serverName, cmd.insecure, pool, certs⟩⟩

/-- The body stream chosen by openBody: an in-memory reader over the raw
data, standard input, an opened file, or http.NoBody. -/
inductive BodySource where
  | memory (data : GoString)
  | stdin
  | file (path : GoString)
  | noBody
deriving DecidableEq

/-- Go (*httpCommand).openBody: the switch on DataRaw and DataFile. -/
def openBody (env : ExecEnv) (cmd : HttpCmd) : Except GoErr BodySource :=
  if cmd.dataRaw ≠ [] then .ok (.memory cmd.dataRaw)
  else if cmd.dataFile = ('-' :: []) then .ok .stdin
  else if cmd.dataFile ≠ [] then
    match env.openFile cmd.dataFile with
    | .error e => .error (.external e)
    | .ok _ => .ok (.file cmd.dataFile)
  else .ok .noBody

structure Request where
  method : GoString
  urlStr : GoString
  headers : Header
  body : BodySource
deriving DecidableEq

/-- Go (*httpCommand).buildRequest: http.NewRequest followed by installing
the headers parsed during validation. -/
def buildRequest (env : ExecEnv) (cmd : HttpCmd) (reqHeaders : Header)
    (body : BodySource) : Except GoErr Request :=
  match env.newRequest cmd.method cmd.urlStr with
  | .error e => .error (.external e)
  | .ok _ => .ok ⟨cmd.method, cmd.urlStr, reqHeaders, body⟩

/-- The negotiated TLS state captured on a response; peer certificates are
opaque handles interpreted through a certificate environment. -/
structure TLSConnectionState where
  version : Nat
  cipherSuite : Nat
  negotiatedProtocol : GoString
  serverName : GoString
  peerCertificates : List Nat
deriving DecidableEq

structure Response where
  status : GoString
  tls : Option TLSConnectionState
deriving DecidableEq

/-- Go (*httpCommand).run up to the client.Do call: the network round trip
is the net parameter, and each stage failure is wrapped with the phrase run
uses; the response printing that follows a successful exchange is modelled
separately by logTLSState. -/
def runHTTPCommand (env : ExecEnv) (net : Client → Request → Except GoString Response)
    (cmd : HttpCmd) (reqHeaders : Header) : Except GoErr Response :=
  match buildClient env cmd with
  | .error e => .error (.wrap (("error building client").data) e)
  | .ok client =>
    match openBody env cmd with
    | .error e => .error (.wrap (("error opening body").data) e)
    | .ok body =>
      match buildRequest env cmd reqHeaders body with
      | .error e => .error (.wrap (("error building request").data) e)
      | .ok req =>
        match net client req with
        | .error e => .error (.wrap (("error sending request").data) (.external e))
        | .ok resp => .ok resp

/-- Modelled from the spec: the both-or-neither constraint on the cert and
key flags.  The repository declares it with cobra's
MarkFlagsRequiredTogether("cert", "key") (internal/cmd/http.go line 189);
the cobra library enforcing it is outside the repository, and per the spec
supplying a client certificate without a key, or vice versa, is rejected
before any I/O occurs. -/
def certKeyFlagCheck (cmd : HttpCmd) : Except GoErr Unit :=
  if (cmd.clientCertificate ≠ [] ∧ cmd.clientKey = []) ∨
     (cmd.clientCertificate = [] ∧ cmd.clientKey ≠ []) then
    .error (.external (("if any flags in the group [cert key] are set they must all be set").data))
  else .ok ()

/-- Go net.AddrError: a why string plus the offending address. -/
structure AddrError where
  err : GoString
  addr : GoString
deriving DecidableEq

def missingPortInAddress : GoString := ("missing port in address").data

def tooManyColonsInAddress : GoString := ("too many colons in address").data

/-- The checks net.SplitHostPort performs after host and the port position
are fixed: no later '[' from position j on, no later ']' from position k on,
then the port is everything after the last colon (position i). -/
def splitHostPortFinish (hostport host : GoString) (j k i : Nat) :
    Except AddrError (GoString × GoString) :=
  if containsChar '[' (hostport.drop j) then
    .error ⟨("unexpected \x27[\x27 in address").data, hostport⟩
  else if containsChar ']' (hostport.drop k) then
    .error ⟨("unexpected \x27]\x27 in address").data, hostport⟩
  else .ok (host, hostport.drop (i + 1))

/-- Go net.SplitHostPort. -/
def splitHostPort (hostport : GoString) : Except AddrError (GoString × GoString) :=
  match lastIndexOfChar ':' hostport with
  | none => .error ⟨missingPortInAddress, hostport⟩
  | some i =>
    if hostport.head? = some '[' then
      match indexOfChar ']' hostport with
      | none => .error ⟨("missing \x27]\x27 in address").data, hostport⟩
      | some endIdx =>
        if endIdx + 1 = hostport.length then .error ⟨missingPortInAddress, hostport⟩
        else if endIdx + 1 = i then
          splitHostPortFinish hostport ((hostport.take endIdx).drop 1) 1 (endIdx + 1) i
        else if hostport.get? (endIdx + 1) = some ':' then
          .error ⟨tooManyColonsInAddress, hostport⟩
        else .error ⟨missingPortInAddress, hostport⟩
    else
      if containsChar ':' (hostport.take i) then .error ⟨tooManyColonsInAddress, hostport⟩
      else splitHostPortFinish hostport (hostport.take i) 0 0 i

/-- The failure cases of validateAddress (internal/command/reachable.go):
the error net.SplitHostPort returned, or one of the two errors.New values. -/
inductive AddrValidErr where
  | split (e : AddrError)
  | missingPort
  | missingHost
deriving DecidableEq

/-- Go validateAddress (identical in internal/command/reachable.go and the
cli variant): SplitHostPort, then empty port, then empty host. -/
def validateAddress (addr : GoString) : Option AddrValidErr :=
  match splitHostPort addr with
  | .error e => some (.split e)
  | .ok (host, port) =>
    if port = [] then some .missingPort
    else if host = [] then some .missingHost
    else none

/-- The user-visible text of each validateAddress failure; a Go AddrError
prints as "address <addr>: <why>" when the address is non-empty. -/
def addrValidErrMessage : AddrValidErr → GoString
  | .split e =>
    if e.addr = [] then e.err else ("address ").data ++ e.addr ++ (": ").data ++ e.err
  | .missingPort => ("missing port").data
  | .missingHost => ("missing host").data

/-- needle occurs contiguously inside hay. -/
def isSubstringOf (needle hay : GoString) : Prop :=
  ∃ a b, hay = a ++ (needle ++ b)

/-- Go stringContainsCTLByte's test on one code point. -/
def isCTLByte (c : Char) : Bool :=
  decide (c.toNat < 32 ∨ c.toNat = 127)

/-- net/url.Parse first cuts the fragment off at the first '#'. -/
def cutFragment (s : GoString) : GoString :=
  s.takeWhile (fun c => c ≠ '#')

def isSchemeAlpha (c : Char) : Bool :=
  decide (('a' ≤ c ∧ c ≤ 'z') ∨ ('A' ≤ c ∧ c ≤ 'Z'))

def isSchemeDigitOrSign (c : Char) : Bool :=
  decide (('0' ≤ c ∧ c ≤ '9') ∨ c = '+' ∨ c = '-' ∨ c = '.')

/-- The loop of Go net/url getScheme; acc holds the scanned characters in
reverse, so acc = [] exactly when the loop index is 0.  An alphabetic
character continues; a digit or +, -, . continues unless first; a colon
first is the missing-protocol-scheme error and otherwise ends the scheme;
anything else means the string has no scheme. -/
def getSchemeAux (orig acc : GoString) : GoString → Except Unit (GoString × GoString)
  | [] => .ok ([], orig)
  | c :: rest =>
    if isSchemeAlpha c then getSchemeAux orig (c :: acc) rest
    else if isSchemeDigitOrSign c then
      if acc = [] then .ok ([], orig) else getSchemeAux orig (c :: acc) rest
    else if c = ':' then
      if acc = [] then .error () else .ok (acc.reverse, rest)
    else .ok ([], orig)

def goToLowerChar (c : Char) : Char :=
  if 'A' ≤ c ∧ c ≤ 'Z' then Char.ofNat (c.toNat + 32) else c

/-- Outcomes of net/url.Parse relevant here: the control-character error,
the missing-protocol-scheme error, or a failure while parsing the remainder
of the URL (authority, host, escapes), which is abstract. -/
inductive URLErr where
  | ctl
  | missingProtocolScheme
  | rest (e : GoString)
deriving DecidableEq

structure URLParseEnv where
  restParse : GoString → Option GoString

structure ParsedURL where
  scheme : GoString
deriving DecidableEq

/-- Go net/url.Parse, restricted to what reaches the scheme switch: cut the
fragment, reject control characters, run getScheme, lower-case the scheme
(ASCII suffices: getScheme only admits ASCII), and let the abstract
remainder parser accept or reject the rest of the URL. -/
def urlParse (env : URLParseEnv) (raw : GoString) : Except URLErr ParsedURL :=
  let u := cutFragment raw
  if u.any isCTLByte then .error .ctl
  else
    match getSchemeAux u [] u with
    | .error _ => .error .missingProtocolScheme
    | .ok (scheme, _) =>
      match env.restParse raw with
      | some e => .error (.rest e)
      | none => .ok ⟨scheme.map goToLowerChar⟩

/-- The failure cases of parseURL / validateURL. -/
inductive URLValidationErr where
  | parseFailed (e : URLErr)
  | missingScheme (url : GoString)
  | unsupportedScheme (url : GoString)
deriving DecidableEq

/-- Go (*httpCommand).parseURL, identical to validateURL in the minimal http
variant and to the check in the httptrace command: url.Parse, then the
switch on the scheme. -/
def parseURL (env : URLParseEnv) (rawURL : GoString) : Except URLValidationErr ParsedURL :=
  match urlParse env rawURL with
  | .error e => .error (.parseFailed e)
  | .ok u =>
    if u.scheme = ("http").data ∨ u.scheme = ("https").data then .ok u
    else if u.scheme = [] then .error (.missingScheme rawURL)
    else .error (.unsupportedScheme rawURL)

def urlErrText : URLErr → GoString
  | .ctl => ("net/url: invalid control character in URL").data
  | .missingProtocolScheme => ("missing protocol scheme").data
  | .rest e => e

/-- The user-visible text of each parseURL failure, following the code's
fmt.Errorf format strings. -/
def urlValidationErrMessage : URLValidationErr → GoString
  | .parseFailed e => ("failed to parse URL: ").data ++ urlErrText e
  | .missingScheme url =>
    ("the provided url does not include a scheme (http/https): ").data ++ url
  | .unsupportedScheme url =>
    ("the provided url does not include a supported scheme (http/https): ").data ++ url

/-- Results of the external certificate/TLS pretty printers: the two
certinfo text functions (which can fail per certificate) and the tls name
lookups. -/
structure CertEnv where
  certificateText : Nat → Except GoString GoString
  certificateShortText : Nat → Except GoString GoString
  versionName : Nat → GoString
  cipherSuiteName : Nat → GoString

/-- The certificate printer selected in logTLSState: certinfo.CertificateText,
or certinfo.CertificateShortText when short certificates were requested. -/
def certText (env : CertEnv) (printShort : Bool) (c : Nat) : Except GoString GoString :=
  if printShort then env.certificateShortText c else env.certificateText c

/-- The certificate loop of (*httpCommand).logTLSState: one numbered line
per certificate, then either its text or the failed-to-parse note, never
stopping early. -/
def renderCerts (env : CertEnv) (printShort : Bool) : Nat → List Nat → List GoString
  | _, [] => []
  | i, c :: rest =>
    (("Peer Certificate #").data ++ Nat.toDigits 10 i ++ (":").data) ::
      (match certText env printShort c with
       | .error e => (("Failed to parse certificate: ").data ++ e) ::
           renderCerts env printShort (i + 1) rest
       | .ok t => t :: renderCerts env printShort (i + 1) rest)

def noTLSStateLine : GoString :=
  ("No TLS connection state is available. The request was likely unencrypted (HTTP).").data

/-- The four summary lines logTLSState prints before the certificates. -/
def tlsStateHeaderLines (env : CertEnv) (st : TLSConnectionState) : List GoString :=
  [("TLS Version: ").data ++ env.versionName st.version,
   ("Cipher Suite: ").data ++ env.cipherSuiteName st.cipherSuite,
   ("Negotiated Protocol (ALPN): ").data ++ st.negotiatedProtocol,
   ("Server Name: ").data ++ st.serverName]

/-- Go (*httpCommand).logTLSState as the list of lines it writes. -/
def logTLSState (env : CertEnv) (printShort : Bool) :
    Option TLSConnectionState → List GoString
  | none => [noTLSStateLine]
  | some st => tlsStateHeaderLines env st ++ renderCerts env printShort 0 st.peerCertificates

/-- One httptrace.ClientTrace callback of the httptrace command, with the
payload the handler prints (dns-done address lists arrive already formatted
by fmt %v; failures carry the error text). -/
inductive TraceCallback where
  | dnsStart (host : GoString)
  | dnsDone (addrs : GoString)
  | connectStart (network addr : GoString)
  | connectDone (network addr : GoString) (err : Option GoString)
  | tlsStart
  | tlsDone (err : Option GoString)
  | gotConn
  | firstByte
deriving DecidableEq

/-- A callback invocation: the monotone-clock reading (nanoseconds) at which
the transport fired it, and which callback it was. -/
structure TraceInvocation where
  time : Nat
  cb : TraceCallback
deriving DecidableEq

/-- fmt %q string quoting, external formatting. -/
structure FmtEnv where
  quote : GoString → GoString

/-- The body each handler of runHTTPTrace passes to logWithDelta, following
the format strings in the source. -/
def callbackBody (env : FmtEnv) : TraceCallback → GoString
  | .dnsStart host => ("DNS start - host=").data ++ env.quote host
  | .dnsDone addrs => ("DNS done - addrs=").data ++ addrs
  | .connectStart network addr =>
    ("Connection starting - network=").data ++ env.quote network ++
      (", addr=").data ++ env.quote addr
  | .connectDone network addr none =>
    ("Connection done - network=").data ++ env.quote network ++
      (", addr=").data ++ env.quote addr
  | .connectDone network addr (some e) =>
    ("Connection failed - network=").data ++ env.quote network ++
      (", addr=").data ++ env.quote addr ++ (", err=").data ++ env.quote e
  | .tlsStart => ("TLS handshake starting").data
  | .tlsDone none => ("TLS handshake complete").data
  | .tlsDone (some e) => ("TLS handshake failed - err=").data ++ env.quote e
  | .gotConn => ("Got connection").data
  | .firstByte => ("Got first response byte").data

/-- The "%6dms: " stamp: the millisecond count right-justified to width 6. -/
def msStamp (ms : Nat) : GoString :=
  List.replicate (6 - (Nat.toDigits 10 ms).length) ' ' ++ Nat.toDigits 10 ms ++ ("ms: ").data

/-- Go logWithDelta: delta is time.Since(start), printed in milliseconds
(nanoseconds divided by 1000000), followed by the formatted body. -/
def logWithDelta (start now : Nat) (body : GoString) : GoString :=
  msStamp ((now - start) / 1000000) ++ body

def traceLine (env : FmtEnv) (start : Nat) (inv : TraceInvocation) : GoString :=
  logWithDelta start inv.time (callbackBody env inv.cb)

/-- The output of runHTTPTrace's instrumentation: each callback invocation
the transport makes is printed immediately through logWithDelta, so the
output is the emission-ordered list of stamped lines. -/
def runHTTPTrace (env : FmtEnv) (start : Nat) (invs : List TraceInvocation) : List GoString :=
  invs.map (traceLine env start)

theorem splitOnce_of_not_mem {sep : Char} : ∀ {s : GoString}, sep ∉ s → splitOnce sep s = none
  | [], _ => rfl
  | c :: rest, h => by
    have hc : ¬ c = sep := fun hh => h (hh ▸ List.mem_cons_self c rest)
    have hr := @splitOnce_of_not_mem sep rest (fun hm => h (List.mem_cons_of_mem _ hm))
    simp [splitOnce, hc, hr]

theorem splitOnce_append {sep : Char} : ∀ (name value : GoString), sep ∉ name →
    splitOnce sep (name ++ sep :: value) = some (name, value)
  | [], _, _ => by simp [splitOnce]
  | c :: rest, value, h => by
    have hc : ¬ c = sep := fun hh => h (hh ▸ List.mem_cons_self c rest)
    have hr := @splitOnce_append sep rest value (fun hm => h (List.mem_cons_of_mem _ hm))
    simp [splitOnce, hc, hr]

/-- C1 (amended).  A raw header string without the ":" delimiter makes
header assembly fail with the malformed-header error carrying that exact
string; a well-formed "Name:value" string stores the value with surrounding
white space trimmed, under the canonical MIME form of the untrimmed
left-hand side as the map key (http.Header.Add canonicalises key case, so
the stored name is the untrimmed left-hand side only up to that
canonicalisation). -/
theorem header_assembly_amended (h : Header) (s name value : GoString)
    (hs : ':' ∉ s) (hn : ':' ∉ name) :
    addHeader h s = .error (.malformedHeader s) ∧
    addHeader h (name ++ ':' :: value) = .ok (h.add name (goTrimSpace value)) ∧
    parseHeadersLoop ⟨[]⟩ [s] = .error (.malformedHeader s) ∧
    parseHeadersLoop ⟨[]⟩ [name ++ ':' :: value] =
      .ok ⟨[(canonicalMIMEHeaderKey name, [goTrimSpace value])]⟩ := by
  have h1 : goSplitN2 ':' s = [s] := by
    rw [goSplitN2, splitOnce_of_not_mem hs]
  have h2 : goSplitN2 ':' (name ++ ':' :: value) = [name, value] := by
    rw [goSplitN2, splitOnce_append name value hn]
  refine ⟨?_, ?_, ?_, ?_⟩
  · simp [addHeader, h1]
  · simp [addHeader, h2]
  · simp [parseHeadersLoop, addHeader, h1]
  · simp [parseHeadersLoop, addHeader, h2, Header.add, addEntry]

theorem header_assembly_amended_witness :
    addHeader ⟨[]⟩ (("no-delimiter").data) = .error (.malformedHeader (("no-delimiter").data)) ∧
    addHeader ⟨[]⟩ ((("X-Test").data) ++ ':' :: ((" 1 ").data)) =
      .ok (Header.add ⟨[]⟩ (("X-Test").data) (goTrimSpace ((" 1 ").data))) ∧
    parseHeadersLoop ⟨[]⟩ [("no-delimiter").data] =
      .error (.malformedHeader (("no-delimiter").data)) ∧
    parseHeadersLoop ⟨[]⟩ [(("X-Test").data) ++ ':' :: ((" 1 ").data)] =
      .ok ⟨[(canonicalMIMEHeaderKey (("X-Test").data), [goTrimSpace ((" 1 ").data)])]⟩ :=
  header_assembly_amended ⟨[]⟩ (("no-delimiter").data) (("X-Test").data) ((" 1 ").data)
    (by decide) (by decide)

/-- C1 counterexample.  The well-formed header string "x-test: 1" splits
into untrimmed name "x-test" and value " 1", but the assembled map stores
the entry under "X-Test": the stored name differs from the untrimmed
left-hand side of the delimiter. -/
theorem header_assembly_canonicalization_cex :
    goSplitN2 ':' (("x-test: 1").data) = [("x-test").data, (" 1").data] ∧
    parseHeadersLoop ⟨[]⟩ [("x-test: 1").data] =
      .ok ⟨[(("X-Test").data, [("1").data])]⟩ ∧
    (("X-Test").data : GoString) ≠ ("x-test").data := by
  refine ⟨rfl, rfl, by decide⟩

theorem lookupVals_setEntry_self :
    ∀ (l : List (GoString × List GoString)) (k v : GoString),
      lookupVals (setEntry l k v) k = some [v]
  | [], k, v => by simp [setEntry, lookupVals]
  | (k2, vs) :: rest, k, v => by
    by_cases hk : k2 = k
    · simp [setEntry, hk, lookupVals]
    · simp [setEntry, hk, lookupVals, lookupVals_setEntry_self rest k v]

theorem lookupVals_setEntry_ne :
    ∀ (l : List (GoString × List GoString)) (k v k3 : GoString), k3 ≠ k →
      lookupVals (setEntry l k v) k3 = lookupVals l k3
  | [], k, v, k3, hne => by simp [setEntry, lookupVals, Ne.symm hne]
  | (k2, vs) :: rest, k, v, k3, hne => by
    by_cases hk : k2 = k
    · subst hk
      simp [setEntry, lookupVals, Ne.symm hne]
    · simp [setEntry, hk, lookupVals, lookupVals_setEntry_ne rest k v k3 hne]

theorem Header.get_set_self (h : Header) (key value : GoString) :
    Header.get (Header.set h key value) key = value := by
  simp [Header.get, Header.set, lookupVals_setEntry_self]

theorem Header.get_set_ne (h : Header) (key value nm : GoString)
    (hne : canonicalMIMEHeaderKey nm ≠ canonicalMIMEHeaderKey key) :
    Header.get (Header.set h key value) nm = Header.get h nm := by
  simp [Header.get, Header.set, lookupVals_setEntry_ne _ _ _ _ hne]

/-- C2 (amended).  With the raw headers assembled into base, the default
Content-Type text/plain is injected exactly when the request carries a body
and Get("Content-Type") on base is empty — i.e. when no Content-Type header
with a non-empty first value was supplied (a supplied Content-Type whose
value is empty is treated as absent and overwritten); the injection touches
no other header, and a request with no body leaves the map unchanged. -/
theorem parseHeaders_contentType_default (cmd : HttpCmd) (base : Header)
    (hb : parseHeadersLoop ⟨[]⟩ cmd.headers = .ok base) :
    (hasBody cmd = true → Header.get base contentTypeHeader = [] →
      parseHeaders cmd = .ok (Header.set base contentTypeHeader defaultContentType) ∧
      Header.get (Header.set base contentTypeHeader defaultContentType) contentTypeHeader =
        defaultContentType ∧
      (∀ nm, canonicalMIMEHeaderKey nm ≠ contentTypeHeader →
        Header.get (Header.set base contentTypeHeader defaultContentType) nm =
          Header.get base nm)) ∧
    (hasBody cmd = false → parseHeaders cmd = .ok base) ∧
    (Header.get base contentTypeHeader ≠ [] → parseHeaders cmd = .ok base) := by
  have hcanon : canonicalMIMEHeaderKey contentTypeHeader = contentTypeHeader := by decide
  refine ⟨fun h1 h2 => ⟨?_, ?_, ?_⟩, fun h1 => ?_, fun h1 => ?_⟩
  · simp [parseHeaders, hb, h1, h2]
  · exact Header.get_set_self base contentTypeHeader defaultContentType
  · intro nm hne
    exact Header.get_set_ne base contentTypeHeader defaultContentType nm (by rw [hcanon]; exact hne)
  · simp [parseHeaders, hb, h1]
  · simp [parseHeaders, hb, h1]

theorem parseHeaders_contentType_default_witness :
    parseHeaders { headers := [("X-A: 1").data], dataRaw := ("hello").data } =
      .ok (Header.set ⟨[(("X-A").data, [("1").data])]⟩ contentTypeHeader defaultContentType) ∧
    Header.get (Header.set ⟨[(("X-A").data, [("1").data])]⟩ contentTypeHeader defaultContentType)
      contentTypeHeader = defaultContentType ∧
    Header.get (Header.set ⟨[(("X-A").data, [("1").data])]⟩ contentTypeHeader defaultContentType)
      (("x-a").data) = Header.get ⟨[(("X-A").data, [("1").data])]⟩ (("x-a").data) :=
  ⟨((parseHeaders_contentType_default { headers := [("X-A: 1").data], dataRaw := ("hello").data }
        ⟨[(("X-A").data, [("1").data])]⟩ rfl).1 rfl rfl).1,
   ((parseHeaders_contentType_default { headers := [("X-A: 1").data], dataRaw := ("hello").data }
        ⟨[(("X-A").data, [("1").data])]⟩ rfl).1 rfl rfl).2.1,
   ((parseHeaders_contentType_default { headers := [("X-A: 1").data], dataRaw := ("hello").data }
        ⟨[(("X-A").data, [("1").data])]⟩ rfl).1 rfl rfl).2.2 (("x-a").data) (by decide)⟩

/-- C2 counterexample.  With a body present and the explicit header string
"Content-Type:" supplied by the user (an empty-valued Content-Type), the
code still injects the default text/plain, overwriting the supplied value:
injection is not equivalent to "no explicit Content-Type header was
supplied". -/
theorem parseHeaders_contentType_cex :
    hasBody { headers := [("Content-Type:").data], dataRaw := ("hello").data } = true ∧
    goSplitN2 ':' (("Content-Type:").data) = [contentTypeHeader, []] ∧
    parseHeadersLoop ⟨[]⟩ [("Content-Type:").data] = .ok ⟨[(contentTypeHeader, [[]])]⟩ ∧
    parseHeaders { headers := [("Content-Type:").data], dataRaw := ("hello").data } =
      .ok ⟨[(contentTypeHeader, [defaultContentType])]⟩ :=
  ⟨rfl, rfl, rfl, rfl⟩

/-- An environment of concrete external-call outcomes used to instantiate
the hypotheses of the executor theorems: every file read returns bytes from
which no certificate parses, and every other call succeeds. -/
def stubEnv : ExecEnv :=
  ⟨fun _ => .ok (("NOTAPEM").data), .ok (), fun _ => false, fun _ _ => .ok (),
   fun _ => .ok (), fun _ _ => .ok ()⟩

/-- C3.  When a root-CA path is supplied and the PEM bytes read from it
yield no certificate, getRootCertPool fails with the distinct
no-root-certs error naming that path, and the whole run fails the same way
for every possible network — i.e. before any connection attempt; when no
root-CA path is supplied, the platform trust store is used. -/
theorem rootCertPool_spec (env : ExecEnv) (cmd : HttpCmd) (pem : GoString)
    (hpath : cmd.rootCertificate ≠ [])
    (hread : env.readFile cmd.rootCertificate = .ok pem)
    (hparse : env.appendCertsFromPEM pem = false) :
    getRootCertPool env cmd.rootCertificate = .error (.noRootCerts cmd.rootCertificate) ∧
    (∀ net reqHeaders, runHTTPCommand env net cmd reqHeaders =
      .error (.wrap (("error building client").data)
        (.wrap (("error getting root cert pool").data) (.noRootCerts cmd.rootCertificate)))) ∧
    (∀ env2 : ExecEnv, env2.systemCertPool = .ok () →
      getRootCertPool env2 [] = .ok .system) := by
  have hg : getRootCertPool env cmd.rootCertificate =
      .error (.noRootCerts cmd.rootCertificate) := by
    simp [getRootCertPool, hpath, hread, hparse]
  refine ⟨hg, fun net reqHeaders => ?_, fun env2 h2 => ?_⟩
  · simp [runHTTPCommand, buildClient, hg]
  · simp [getRootCertPool, h2]

theorem rootCertPool_spec_witness :
    getRootCertPool stubEnv (("/certs/empty.pem").data) =
      .error (.noRootCerts (("/certs/empty.pem").data)) ∧
    runHTTPCommand stubEnv (fun _ _ => .ok ⟨[], none⟩)
        { rootCertificate := ("/certs/empty.pem").data } ⟨[]⟩ =
      .error (.wrap (("error building client").data)
        (.wrap (("error getting root cert pool").data)
          (.noRootCerts (("/certs/empty.pem").data)))) ∧
    getRootCertPool stubEnv [] = .ok .system :=
  ⟨(rootCertPool_spec stubEnv { rootCertificate := ("/certs/empty.pem").data }
      (("NOTAPEM").data) (by decide) rfl rfl).1,
   (rootCertPool_spec stubEnv { rootCertificate := ("/certs/empty.pem").data }
      (("NOTAPEM").data) (by decide) rfl rfl).2.1 (fun _ _ => .ok ⟨[], none⟩) ⟨[]⟩,
   (rootCertPool_spec stubEnv { rootCertificate := ("/certs/empty.pem").data }
      (("NOTAPEM").data) (by decide) rfl rfl).2.2 stubEnv rfl⟩

/-- C4.  A certificate path without a key path (or vice versa) fails the
flag constraint check, which performs no I/O; getTLSCertificates itself
returns no certificates whenever either path is absent and loads the pair
through tls.LoadX509KeyPair only when both are present. -/
theorem certKeyPairing_spec (env : ExecEnv) (cmd : HttpCmd) :
    (¬ (cmd.clientCertificate = [] ↔ cmd.clientKey = []) →
      certKeyFlagCheck cmd = .error (.external
        (("if any flags in the group [cert key] are set they must all be set").data))) ∧
    (cmd.clientCertificate = [] ∨ cmd.clientKey = [] →
      getTLSCertificates env cmd.clientCertificate cmd.clientKey = .ok []) ∧
    (cmd.clientCertificate ≠ [] → cmd.clientKey ≠ [] →
      getTLSCertificates env cmd.clientCertificate cmd.clientKey =
        (match env.loadX509KeyPair cmd.clientCertificate cmd.clientKey with
         | .error e => .error (.external e)
         | .ok _ => .ok [()])) := by
  refine ⟨fun h => ?_, fun h => ?_, fun h1 h2 => ?_⟩
  · have hx : (cmd.clientCertificate ≠ [] ∧ cmd.clientKey = []) ∨
        (cmd.clientCertificate = [] ∧ cmd.clientKey ≠ []) := by tauto
    rw [certKeyFlagCheck, if_pos hx]
  · simp [getTLSCertificates, h]
  · simp [getTLSCertificates, h1, h2]

theorem certKeyPairing_spec_witness :
    certKeyFlagCheck { clientCertificate := ("client.pem").data } = .error (.external
      (("if any flags in the group [cert key] are set they must all be set").data)) ∧
    getTLSCertificates stubEnv (("client.pem").data) [] = .ok [] ∧
    getTLSCertificates stubEnv (("client.pem").data) (("client.key").data) =
      (match stubEnv.loadX509KeyPair (("client.pem").data) (("client.key").data) with
       | .error e => .error (.external e)
       | .ok _ => .ok [()]) :=
  ⟨(certKeyPairing_spec stubEnv { clientCertificate := ("client.pem").data }).1 (by decide),
   (certKeyPairing_spec stubEnv { clientCertificate := ("client.pem").data }).2.1 (Or.inr rfl),
   (certKeyPairing_spec stubEnv
      { clientCertificate := ("client.pem").data, clientKey := ("client.key").data }).2.2
      (by decide) (by decide)⟩

/-- C5.  Body-source selection: raw data gives the in-memory reader;
otherwise a data-file of exactly "-" gives standard input; otherwise any
non-empty data-file path is opened; otherwise the body is http.NoBody. -/
theorem openBody_spec (env : ExecEnv) (cmd : HttpCmd) :
    (cmd.dataRaw ≠ [] → openBody env cmd = .ok (.memory cmd.dataRaw)) ∧
    (cmd.dataRaw = [] → cmd.dataFile = ('-' :: []) → openBody env cmd = .ok .stdin) ∧
    (cmd.dataRaw = [] → cmd.dataFile ≠ ('-' :: []) → cmd.dataFile ≠ [] →
      openBody env cmd =
        (match env.openFile cmd.dataFile with
         | .error e => .error (.external e)
         | .ok _ => .ok (.file cmd.dataFile))) ∧
    (cmd.dataRaw = [] → cmd.dataFile = [] → openBody env cmd = .ok .noBody) := by
  refine ⟨fun h => ?_, fun h1 h2 => ?_, fun h1 h2 h3 => ?_, fun h1 h2 => ?_⟩
  · simp [openBody, h]
  · simp [openBody, h1, h2]
  · simp [openBody, h1, h2, h3]
  · simp [openBody, h1, h2]

theorem openBody_spec_witness :
    openBody stubEnv { dataRaw := ("hello").data } = .ok (.memory (("hello").data)) ∧
    openBody stubEnv { dataFile := ("-").data } = .ok .stdin ∧
    openBody stubEnv { dataFile := ("body.txt").data } =
      (match stubEnv.openFile (("body.txt").data) with
       | .error e => .error (.external e)
       | .ok _ => .ok (.file (("body.txt").data))) ∧
    openBody stubEnv {} = .ok .noBody :=
  ⟨(openBody_spec stubEnv { dataRaw := ("hello").data }).1 (by decide),
   (openBody_spec stubEnv { dataFile := ("-").data }).2.1 rfl (by decide),
   (openBody_spec stubEnv { dataFile := ("body.txt").data }).2.2.1 rfl (by decide) (by decide),
   (openBody_spec stubEnv {}).2.2.2 rfl rfl⟩

/-- C6.  A URL that parses with a scheme other than exactly http or https
fails validation with no network access: an empty scheme gives the
missing-scheme error, any other scheme the unsupported-scheme error, and in
both cases the message contains the raw input verbatim. -/
theorem parseURL_scheme_spec (env : URLParseEnv) (raw : GoString) (u : ParsedURL)
    (hp : urlParse env raw = .ok u)
    (h1 : u.scheme ≠ ("http").data) (h2 : u.scheme ≠ ("https").data) :
    (u.scheme = [] → parseURL env raw = .error (.missingScheme raw) ∧
      isSubstringOf raw (urlValidationErrMessage (.missingScheme raw))) ∧
    (u.scheme ≠ [] → parseURL env raw = .error (.unsupportedScheme raw) ∧
      isSubstringOf raw (urlValidationErrMessage (.unsupportedScheme raw))) := by
  have hcond : ¬ (u.scheme = ("http").data ∨ u.scheme = ("https").data) := by
    rintro (h | h) <;> [exact h1 h; exact h2 h]
  constructor
  · intro h0
    refine ⟨by simp [parseURL, hp, hcond, h0], ?_⟩
    exact ⟨("the provided url does not include a scheme (http/https): ").data, [],
      by simp [urlValidationErrMessage]⟩
  · intro h0
    refine ⟨by simp [parseURL, hp, hcond, h0], ?_⟩
    exact ⟨("the provided url does not include a supported scheme (http/https): ").data, [],
      by simp [urlValidationErrMessage]⟩

theorem parseURL_scheme_spec_witness :
    urlParse ⟨fun _ => none⟩ (("ftp://example.com").data) = .ok ⟨("ftp").data⟩ ∧
    parseURL ⟨fun _ => none⟩ (("ftp://example.com").data) =
      .error (.unsupportedScheme (("ftp://example.com").data)) ∧
    isSubstringOf (("ftp://example.com").data)
      (urlValidationErrMessage (.unsupportedScheme (("ftp://example.com").data))) :=
  ⟨rfl,
   ((parseURL_scheme_spec ⟨fun _ => none⟩ (("ftp://example.com").data) ⟨("ftp").data⟩
      rfl (by decide) (by decide)).2 (by decide)).1,
   ((parseURL_scheme_spec ⟨fun _ => none⟩ (("ftp://example.com").data) ⟨("ftp").data⟩
      rfl (by decide) (by decide)).2 (by decide)).2⟩

theorem lastIndexOfChar_of_not_mem {c : Char} :
    ∀ {s : GoString}, c ∉ s → lastIndexOfChar c s = none
  | [], _ => rfl
  | x :: xs, h => by
    have hx : ¬ x = c := fun hh => h (hh ▸ List.mem_cons_self x xs)
    have hr := @lastIndexOfChar_of_not_mem c xs (fun hm => h (List.mem_cons_of_mem _ hm))
    simp [lastIndexOfChar, hr, hx]

theorem splitHostPort_no_colon {addr : GoString} (h : ':' ∉ addr) :
    splitHostPort addr = .error ⟨missingPortInAddress, addr⟩ := by
  rw [splitHostPort, lastIndexOfChar_of_not_mem h]

theorem missingPortInAddress_split :
    missingPortInAddress = ("missing port").data ++ (" in address").data := by decide

/-- C7 (amended).  An address that splits with an empty port is classified
missing port; an address that splits with an empty host and a non-empty
port is classified missing host (an empty host with an empty port is
classified missing port, not missing host — see the counterexample); an
address with no colon fails with the splitting error, whose message still
contains "missing port". -/
theorem validateAddress_classification (addr : GoString) :
    (∀ host port, splitHostPort addr = .ok (host, port) →
      (port = [] → validateAddress addr = some .missingPort) ∧
      (port ≠ [] → host = [] → validateAddress addr = some .missingHost)) ∧
    (':' ∉ addr →
      validateAddress addr = some (.split ⟨missingPortInAddress, addr⟩) ∧
      isSubstringOf (("missing port").data)
        (addrValidErrMessage (.split ⟨missingPortInAddress, addr⟩))) := by
  constructor
  · intro host port hsp
    refine ⟨fun hport => ?_, fun hport hhost => ?_⟩
    · simp [validateAddress, hsp, hport]
    · simp [validateAddress, hsp, hport, hhost]
  · intro h
    refine ⟨by simp [validateAddress, splitHostPort_no_colon h], ?_⟩
    by_cases ha : addr = []
    · refine ⟨[], (" in address").data, ?_⟩
      simp [addrValidErrMessage, ha, missingPortInAddress_split]
    · refine ⟨("address ").data ++ addr ++ (": ").data, (" in address").data, ?_⟩
      simp [addrValidErrMessage, ha, missingPortInAddress_split]

theorem validateAddress_classification_witness :
    validateAddress (("host:").data) = some .missingPort ∧
    validateAddress ((":80").data) = some .missingHost ∧
    validateAddress (("example.com").data) =
      some (.split ⟨missingPortInAddress, ("example.com").data⟩) ∧
    isSubstringOf (("missing port").data)
      (addrValidErrMessage (.split ⟨missingPortInAddress, ("example.com").data⟩)) :=
  ⟨((validateAddress_classification (("host:").data)).1 (("host").data) [] rfl).1 rfl,
   ((validateAddress_classification ((":80").data)).1 [] (("80").data) rfl).2 (by decide) rfl,
   ((validateAddress_classification (("example.com").data)).2 (by decide)).1,
   ((validateAddress_classification (("example.com").data)).2 (by decide)).2⟩

/-- C7 counterexample.  The address ":" lacks a host component (it splits
with an empty host), yet validation classifies it as missing port, not
missing host. -/
theorem validateAddress_colon_cex :
    splitHostPort ((":").data) = .ok ([], []) ∧
    validateAddress ((":").data) = some .missingPort ∧
    validateAddress ((":").data) ≠ some .missingHost :=
  ⟨rfl, rfl, by decide⟩

/-- C10.  The empty-port check precedes the empty-host check, so the
address ":" (empty host and empty port) is classified missing port and not
missing host; and an address with no colon fails with the error produced by
net.SplitHostPort itself, which is neither of the two explicit
classification values. -/
theorem validateAddress_order_spec (addr : GoString) (h : ':' ∉ addr) :
    splitHostPort ((":").data) = .ok ([], []) ∧
    validateAddress ((":").data) = some .missingPort ∧
    validateAddress ((":").data) ≠ some .missingHost ∧
    validateAddress addr = some (.split ⟨missingPortInAddress, addr⟩) ∧
    (∀ e : AddrError, (AddrValidErr.split e ≠ .missingPort ∧
      AddrValidErr.split e ≠ .missingHost)) := by
  refine ⟨rfl, rfl, by decide, ?_, fun e => by constructor <;> intro hh <;> cases hh⟩
  simp [validateAddress, splitHostPort_no_colon h]

theorem validateAddress_order_spec_witness :
    splitHostPort ((":").data) = .ok ([], []) ∧
    validateAddress ((":").data) = some .missingPort ∧
    validateAddress ((":").data) ≠ some .missingHost ∧
    validateAddress (("localhost").data) =
      some (.split ⟨missingPortInAddress, ("localhost").data⟩) ∧
    AddrValidErr.split ⟨missingPortInAddress, ("localhost").data⟩ ≠ .missingPort ∧
    AddrValidErr.split ⟨missingPortInAddress, ("localhost").data⟩ ≠ .missingHost :=
  ⟨(validateAddress_order_spec (("localhost").data) (by decide)).1,
   (validateAddress_order_spec (("localhost").data) (by decide)).2.1,
   (validateAddress_order_spec (("localhost").data) (by decide)).2.2.1,
   (validateAddress_order_spec (("localhost").data) (by decide)).2.2.2.1,
   ((validateAddress_order_spec (("localhost").data) (by decide)).2.2.2.2
      ⟨missingPortInAddress, ("localhost").data⟩).1,
   ((validateAddress_order_spec (("localhost").data) (by decide)).2.2.2.2
      ⟨missingPortInAddress, ("localhost").data⟩).2⟩

theorem renderCerts_append (env : CertEnv) (ps : Bool) :
    ∀ (pre post : List Nat) (i : Nat),
      renderCerts env ps i (pre ++ post) =
        renderCerts env ps i pre ++ renderCerts env ps (i + pre.length) post
  | [], post, i => by simp [renderCerts]
  | c :: pre, post, i => by
    have ih := renderCerts_append env ps pre post (i + 1)
    have harith : i + 1 + pre.length = i + (pre.length + 1) := by omega
    cases hct : certText env ps c with
    | error e => simp [renderCerts, hct, ih, harith]
    | ok t => simp [renderCerts, hct, ih, harith]

/-- C8.  Rendering TLS connection state: with no TLS state (a plaintext
exchange) exactly the one informational line is emitted and nothing fails;
with TLS state present, a certificate whose decode fails contributes its
numbered line and a failed-to-parse note while the rest of the chain after
it is still rendered. -/
theorem logTLSState_spec (env : CertEnv) (printShort : Bool) :
    logTLSState env printShort none = [noTLSStateLine] ∧
    (∀ (st : TLSConnectionState) (pre post : List Nat) (c : Nat) (e : GoString),
      st.peerCertificates = pre ++ c :: post →
      certText env printShort c = .error e →
      logTLSState env printShort (some st) =
        tlsStateHeaderLines env st ++
          (renderCerts env printShort 0 pre ++
            ((("Peer Certificate #").data ++ Nat.toDigits 10 pre.length ++ (":").data) ::
              ((("Failed to parse certificate: ").data ++ e) ::
                renderCerts env printShort (pre.length + 1) post)))) := by
  refine ⟨rfl, ?_⟩
  intro st pre post c e hc he
  rw [logTLSState, hc, renderCerts_append]
  simp [renderCerts, he, Nat.zero_add]

def sampleCertEnv : CertEnv :=
  ⟨fun n => if n = 1 then .error (("boom").data) else .ok (("CERT").data),
   fun n => if n = 1 then .error (("boom").data) else .ok (("SHORTCERT").data),
   fun _ => ("TLS 1.3").data, fun _ => ("TLS_AES_128_GCM_SHA256").data⟩

def sampleTLSState : TLSConnectionState :=
  ⟨772, 4865, ("h2").data, ("example.com").data, [0, 1, 2]⟩

theorem logTLSState_spec_witness :
    logTLSState sampleCertEnv false none = [noTLSStateLine] ∧
    logTLSState sampleCertEnv false (some sampleTLSState) =
      tlsStateHeaderLines sampleCertEnv sampleTLSState ++
        (renderCerts sampleCertEnv false 0 [0] ++
          ((("Peer Certificate #").data ++ Nat.toDigits 10 ([0] : List Nat).length ++
              (":").data) ::
            ((("Failed to parse certificate: ").data ++ ("boom").data) ::
              renderCerts sampleCertEnv false (([0] : List Nat).length + 1) [2]))) :=
  ⟨(logTLSState_spec sampleCertEnv false).1,
   (logTLSState_spec sampleCertEnv false).2 sampleTLSState [0] [2] 1 (("boom").data) rfl rfl⟩

/-- C9.  Every trace output line is the body of its callback prefixed with
the elapsed milliseconds since the trace started, the elapsed-millisecond
stamps are non-decreasing in emission order (given the monotone clock), and
when the transport's callback sequence for a successful HTTPS GET contains
dns-start, dns-done, a successful connect-done, a successful tls-done and
first-byte in that order, the output contains their five lines in that
order with non-decreasing stamps. -/
theorem runHTTPTrace_timeline (env : FmtEnv) (start : Nat) (invs sub : List TraceInvocation)
    (host addrs network addr : GoString)
    (hmono : List.Chain' (· ≤ ·) (invs.map TraceInvocation.time))
    (hsub : List.Sublist sub invs)
    (hph : sub.map TraceInvocation.cb =
      [.dnsStart host, .dnsDone addrs, .connectDone network addr none, .tlsDone none,
       .firstByte]) :
    runHTTPTrace env start invs =
      invs.map (fun i => msStamp ((i.time - start) / 1000000) ++ callbackBody env i.cb) ∧
    List.Chain' (· ≤ ·) (invs.map (fun i => (i.time - start) / 1000000)) ∧
    List.Sublist (sub.map (traceLine env start)) (runHTTPTrace env start invs) ∧
    List.Chain' (· ≤ ·) (sub.map (fun i => (i.time - start) / 1000000)) ∧
    sub.map (fun i => callbackBody env i.cb) =
      [callbackBody env (.dnsStart host), callbackBody env (.dnsDone addrs),
       callbackBody env (.connectDone network addr none), callbackBody env (.tlsDone none),
       callbackBody env .firstByte] := by
  refine ⟨rfl, ?_, ?_, ?_, ?_⟩
  · have h1 : invs.map (fun i => (i.time - start) / 1000000) =
        (invs.map TraceInvocation.time).map (fun t => (t - start) / 1000000) := by
      rw [List.map_map]; rfl
    rw [h1, List.chain'_map]
    exact hmono.imp (fun a b hab => Nat.div_le_div_right (Nat.sub_le_sub_right hab start))
  · exact List.Sublist.map (traceLine env start) hsub
  · have hsubt : List.Chain' (· ≤ ·) (sub.map TraceInvocation.time) :=
      hmono.sublist (List.Sublist.map TraceInvocation.time hsub)
    have h1 : sub.map (fun i => (i.time - start) / 1000000) =
        (sub.map TraceInvocation.time).map (fun t => (t - start) / 1000000) := by
      rw [List.map_map]; rfl
    rw [h1, List.chain'_map]
    exact hsubt.imp (fun a b hab => Nat.div_le_div_right (Nat.sub_le_sub_right hab start))
  · have h1 : sub.map (fun i => callbackBody env i.cb) =
        (sub.map TraceInvocation.cb).map (callbackBody env) := by
      rw [List.map_map]; rfl
    rw [h1, hph]
    rfl

def sampleFmt : FmtEnv := ⟨fun s => s⟩

def sampleTrace : List TraceInvocation :=
  [⟨0, .dnsStart (("example.com").data)⟩,
   ⟨1000000, .dnsDone (("1.2.3.4").data)⟩,
   ⟨2000000, .connectDone (("tcp").data) (("1.2.3.4:443").data) none⟩,
   ⟨3000000, .tlsDone none⟩,
   ⟨4000000, .firstByte⟩]

theorem runHTTPTrace_timeline_witness :
    runHTTPTrace sampleFmt 0 sampleTrace =
      sampleTrace.map (fun i => msStamp ((i.time - 0) / 1000000) ++ callbackBody sampleFmt i.cb) ∧
    List.Chain' (· ≤ ·) (sampleTrace.map (fun i => (i.time - 0) / 1000000)) ∧
    List.Sublist (sampleTrace.map (traceLine sampleFmt 0)) (runHTTPTrace sampleFmt 0 sampleTrace) ∧
    List.Chain' (· ≤ ·) (sampleTrace.map (fun i => (i.time - 0) / 1000000)) ∧
    sampleTrace.map (fun i => callbackBody sampleFmt i.cb) =
      [callbackBody sampleFmt (.dnsStart (("example.com").data)),
       callbackBody sampleFmt (.dnsDone (("1.2.3.4").data)),
       callbackBody sampleFmt (.connectDone (("tcp").data) (("1.2.3.4:443").data) none),
       callbackBody sampleFmt (.tlsDone none),
       callbackBody sampleFmt .firstByte] :=
  runHTTPTrace_timeline sampleFmt 0 sampleTrace sampleTrace (("example.com").data)
    (("1.2.3.4").data) (("tcp").data) (("1.2.3.4:443").data)
    (by simp [sampleTrace, List.chain'_cons]) (List.Sublist.refl _) rfl
